import Mathlib

/-!
Verification of the network-architecture module (`common/networks.py`).

Tensors are modelled as `Fin`-indexed functions into an exact field: `ℚ` for the
purely algebraic layers (linear maps, dueling heads), `ℝ` where the source uses
`sqrt`/`exp` (noise transform, softmax).  Shape-level semantics of the
convolutional stacks are modelled separately as functions on shape records,
with `Option` capturing the shape errors the tensor substrate would raise.
Randomness (`torch.randn`, uniform initialisation) is passed in explicitly as
draw vectors, and `torch.empty`'s unspecified contents are passed in as an
arbitrary "garbage" state, so every operation is a deterministic function of
its inputs.
-/

namespace Networks

/-- `torch.nn.functional.linear(input, weight, bias)` applied to one row of the
input: `output[j] = Σ_i weight[j][i] * input[i] + bias[j]`.  A batched call
applies this independently to every row of the batch. -/
def F.linear {α : Type} [Field α] {nIn nOut : ℕ}
    (input : Fin nIn → α) (weight : Fin nOut → Fin nIn → α) (bias : Fin nOut → α) :
    Fin nOut → α :=
  fun j => (∑ i, weight j i * input i) + bias j

/-- `torch.relu` / `nn.ReLU`, elementwise. -/
def relu {α : Type} [LinearOrderedField α] (x : α) : α := max x 0

/-- The parameter/buffer state of a `FactorizedNoisyLinear` module
(`networks.py` lines 12-31): mean and sigma parameters plus the two noise
buffers, all shaped `(out_features, in_features)` for the weight component and
`(out_features)` for the bias component. -/
structure FactorizedNoisyLinear (α : Type) (in_features out_features : ℕ) where
  weight_mu : Fin out_features → Fin in_features → α
  weight_sigma : Fin out_features → Fin in_features → α
  weight_epsilon : Fin out_features → Fin in_features → α
  bias_mu : Fin out_features → α
  bias_sigma : Fin out_features → α
  bias_epsilon : Fin out_features → α

/-- `FactorizedNoisyLinear.forward` (lines 63-69):
`F.linear(input, weight_mu + weight_sigma*weight_epsilon,
bias_mu + bias_sigma*bias_epsilon)` on each row of the input. -/
def FactorizedNoisyLinear.forward {α : Type} [Field α] {nI nO : ℕ}
    (l : FactorizedNoisyLinear α nI nO) (input : Fin nI → α) : Fin nO → α :=
  F.linear input
    (fun j i => l.weight_mu j i + l.weight_sigma j i * l.weight_epsilon j i)
    (fun j => l.bias_mu j + l.bias_sigma j * l.bias_epsilon j)

/-- `FactorizedNoisyLinear.disable_noise` (lines 58-61): zeroes both noise
buffers in place. -/
def FactorizedNoisyLinear.disable_noise {α : Type} [Field α] {nI nO : ℕ}
    (l : FactorizedNoisyLinear α nI nO) : FactorizedNoisyLinear α nI nO :=
  { l with weight_epsilon := fun _ _ => 0, bias_epsilon := fun _ => 0 }

/-- `FactorizedNoisyLinear._get_noise` (lines 44-48) applied to the vector of
standard-normal draws: `noise.sign().mul_(noise.abs().sqrt_())`, i.e.
`f(x) = sgn(x) * sqrt(|x|)` elementwise. -/
noncomputable def FactorizedNoisyLinear.get_noise {n : ℕ} (draw : Fin n → ℝ) : Fin n → ℝ :=
  fun i => Real.sign (draw i) * Real.sqrt |draw i|

/-- `FactorizedNoisyLinear.reset_noise` (lines 50-56), with the two
standard-normal draw vectors passed in explicitly:
`epsilon_in = _get_noise(in_features)`, `epsilon_out = _get_noise(out_features)`,
`weight_epsilon.copy_(epsilon_out.outer(epsilon_in))`,
`bias_epsilon.copy_(epsilon_out)`. -/
noncomputable def FactorizedNoisyLinear.reset_noise {nI nO : ℕ} (l : FactorizedNoisyLinear ℝ nI nO)
    (draw_in : Fin nI → ℝ) (draw_out : Fin nO → ℝ) : FactorizedNoisyLinear ℝ nI nO :=
  let epsilon_in := FactorizedNoisyLinear.get_noise draw_in
  let epsilon_out := FactorizedNoisyLinear.get_noise draw_out
  { l with weight_epsilon := fun j i => epsilon_out j * epsilon_in i,
           bias_epsilon := epsilon_out }

/-- `FactorizedNoisyLinear.reset_parameters` (lines 33-42), with the uniform
`[-scale, scale]` draws for the mean parameters passed in explicitly:
sets `weight_sigma`/`bias_sigma` to the constant `sigma_0 * scale`,
`scale = 1/sqrt(in_features)`. -/
noncomputable def FactorizedNoisyLinear.reset_parameters {nI nO : ℕ} (l : FactorizedNoisyLinear ℝ nI nO)
    (sigma_0 : ℝ) (wdraw : Fin nO → Fin nI → ℝ) (bdraw : Fin nO → ℝ) :
    FactorizedNoisyLinear ℝ nI nO :=
  let scale := 1 / Real.sqrt nI
  { l with weight_mu := wdraw, bias_mu := bdraw,
           weight_sigma := fun _ _ => sigma_0 * scale,
           bias_sigma := fun _ => sigma_0 * scale }

/-- `FactorizedNoisyLinear.__init__` (lines 14-31): allocates every parameter
and buffer with `torch.empty` (unspecified contents, modelled by the arbitrary
state `garbage`), then calls `self.reset_parameters()` and `self.reset_noise()`
before returning. -/
noncomputable def FactorizedNoisyLinear.init (nI nO : ℕ) (sigma_0 : ℝ)
    (garbage : FactorizedNoisyLinear ℝ nI nO)
    (wdraw : Fin nO → Fin nI → ℝ) (bdraw : Fin nO → ℝ)
    (draw_in : Fin nI → ℝ) (draw_out : Fin nO → ℝ) : FactorizedNoisyLinear ℝ nI nO :=
  (garbage.reset_parameters sigma_0 wdraw bdraw).reset_noise draw_in draw_out

/-- Concrete uninitialized-allocation contents used to observe what the
constructor does to the noise buffers. -/
def garbageEx : FactorizedNoisyLinear ℝ 1 1 where
  weight_mu := fun _ _ => 0
  weight_sigma := fun _ _ => 0
  weight_epsilon := fun _ _ => 42
  bias_mu := fun _ => 0
  bias_sigma := fun _ => 0
  bias_epsilon := fun _ => 7

/-- `Dueling` (lines 71-86): a value branch producing a scalar per example and
an advantage branch producing one value per action, both applied to the
flattened features.  The input is taken already in its flattened 2-D
`(batch, fdim)` view, on which `nn.Flatten` is the identity. -/
structure Dueling (α : Type) (fdim actions : ℕ) where
  value_branch : (Fin fdim → α) → α
  advantage_branch : (Fin fdim → α) → Fin actions → α

/-- `Dueling.forward` (lines 79-86): if `advantages_only`, returns the raw
advantage vector; otherwise `value + (advantages - torch.mean(advantages,
dim=1, keepdim=True))`, the mean taken over the action dimension. -/
def Dueling.forward {α : Type} [LinearOrderedField α] {B fdim actions : ℕ}
    (m : Dueling α fdim actions) (x : Fin B → Fin fdim → α) (advantages_only : Bool) :
    Fin B → Fin actions → α :=
  let advantages := fun b => m.advantage_branch (x b)
  if advantages_only then advantages
  else fun b a =>
    m.value_branch (x b) + (advantages b a - (∑ a', advantages b a') / (actions : α))

/-- `DuelingAlt` (lines 89-98): `main = Sequential(Flatten, l1, ReLU, l2)`,
where `l2` produces `actions + 1` outputs (column 0 is reinterpreted as the
value, columns 1.. as the advantages). -/
structure DuelingAlt (α : Type) (fdim hidden actions : ℕ) where
  l1_weight : Fin hidden → Fin fdim → α
  l1_bias : Fin hidden → α
  l2_weight : Fin (actions + 1) → Fin hidden → α
  l2_bias : Fin (actions + 1) → α

/-- The `self.main` stack of `DuelingAlt` (lines 93-98) on the flattened input. -/
def DuelingAlt.main {α : Type} [LinearOrderedField α] {B fdim hidden actions : ℕ}
    (m : DuelingAlt α fdim hidden actions) (x : Fin B → Fin fdim → α) :
    Fin B → Fin (actions + 1) → α :=
  fun b => F.linear (fun h => relu (F.linear (x b) m.l1_weight m.l1_bias h))
    m.l2_weight m.l2_bias

/-- `DuelingAlt.forward` (lines 100-104): `res = main(x)`,
`advantages = res[:, 1:]`, `value = res[:, 0:1]`, and the returned tensor is
`value + (advantages - torch.mean(advantages, dim=1, keepdim=True))`.
The `advantages_only` argument is accepted but never read by the body. -/
def DuelingAlt.forward {α : Type} [LinearOrderedField α] {B fdim hidden actions : ℕ}
    (m : DuelingAlt α fdim hidden actions) (x : Fin B → Fin fdim → α)
    (advantages_only : Bool) : Fin B → Fin actions → α :=
  let res := m.main x
  let advantages := fun b (a : Fin actions) => res b a.succ
  let value := fun b => res b 0
  fun b a => value b + (advantages b a - (∑ a', advantages b a') / (actions : α))

/-- The raw advantage vector of `DuelingAlt`, following the spec's words: the
columns `res[:, 1:]` of the final stage, with no value term added — what a
`advantages_only=True` call is specified to return. -/
def DuelingAlt.advantagesSpec {α : Type} [LinearOrderedField α] {B fdim hidden actions : ℕ}
    (m : DuelingAlt α fdim hidden actions) (x : Fin B → Fin fdim → α) :
    Fin B → Fin actions → α :=
  fun b a => m.main x b a.succ

/-- Concrete `DuelingAlt` instance: `l1` is the identity on one feature, `l2`
has zero weight and bias `(1, 5)`, so `res = (1, 5)` on the zero input. -/
def duelingAltEx : DuelingAlt ℚ 1 1 1 where
  l1_weight := fun _ _ => 1
  l1_bias := fun _ => 0
  l2_weight := fun _ _ => 0
  l2_bias := fun j => if j = 0 then 1 else 5

/-- The zero one-element input batch for `duelingAltEx`. -/
def duelingAltExInput : Fin 1 → Fin 1 → ℚ := fun _ _ => 0

/-- Concrete `Dueling` instance used to instantiate the decomposition laws. -/
def duelingEx : Dueling ℚ 1 1 where
  value_branch := fun v => v 0
  advantage_branch := fun v _ => v 0

/-- A concrete all-ones feature batch for `duelingEx`. -/
def duelingExInput : Fin 1 → Fin 1 → ℚ := fun _ _ => 1

/-- The parameter state of `SolfAttention` (lines 297-313): the
`encoder_att : Linear(features_dim, attention_dim)` and
`full_att : Linear(attention_dim, 1)` layers. -/
structure SolfAttention (features_dim attention_dim : ℕ) where
  encoder_att_weight : Fin attention_dim → Fin features_dim → ℝ
  encoder_att_bias : Fin attention_dim → ℝ
  full_att_weight : Fin 1 → Fin attention_dim → ℝ
  full_att_bias : Fin 1 → ℝ

/-- `nn.Softmax(dim=1)` on a `(batch, locations)` tensor of scores. -/
noncomputable def softmaxLoc {B L : ℕ} (att : Fin B → Fin L → ℝ) : Fin B → Fin L → ℝ :=
  fun b l => Real.exp (att b l) / ∑ l', Real.exp (att b l')

/-- The pre-softmax attention scores of `SolfAttention.forward` (lines
324-326): `att1 = encoder_att(features)` and then
`att = full_att(relu(att1)).squeeze(2)`, a scalar per location (the squeeze
takes the single output component of `full_att`). -/
noncomputable def SolfAttention.scores {B L fd ad : ℕ} (m : SolfAttention fd ad)
    (features : Fin B → Fin L → Fin fd → ℝ) : Fin B → Fin L → ℝ :=
  fun b l =>
    F.linear (fun d => relu (F.linear (features b l) m.encoder_att_weight m.encoder_att_bias d))
      m.full_att_weight m.full_att_bias 0

/-- `SolfAttention.forward` (lines 316-330) on a
`(batch, locations, features_dim)` tensor: `alpha = softmax(att)` over the
locations axis of the scores, and the weighted encoding is
`features * alpha.unsqueeze(2)`.  Returns `(weighted encoding, alpha)`. -/
noncomputable def SolfAttention.forward {B L fd ad : ℕ} (m : SolfAttention fd ad)
    (features : Fin B → Fin L → Fin fd → ℝ) :
    (Fin B → Fin L → Fin fd → ℝ) × (Fin B → Fin L → ℝ) :=
  (fun b l c => features b l c * softmaxLoc (m.scores features) b l,
   softmaxLoc (m.scores features))

/-- Concrete zero-parameter `SolfAttention` instance. -/
def attentionEx : SolfAttention 1 1 where
  encoder_att_weight := fun _ _ => 0
  encoder_att_bias := fun _ => 0
  full_att_weight := fun _ _ => 0
  full_att_bias := fun _ => 0

/-- A concrete zero features tensor with one batch element, one location and
one channel. -/
def attentionExFeatures : Fin 1 → Fin 1 → Fin 1 → ℝ := fun _ _ _ => 0

/-! ### Shape-level semantics of the convolutional stacks

Shapes are records of dimension sizes; each layer maps an input shape to
`none` exactly when the tensor substrate would raise a shape error. -/

/-- The shape `(batch, channels, height, width)` of a 4-D tensor. -/
structure Shape4 where
  b : ℕ
  c : ℕ
  h : ℕ
  w : ℕ
deriving DecidableEq

/-- The shape `(batch, n)` of a 2-D tensor. -/
structure Shape2 where
  b : ℕ
  n : ℕ
deriving DecidableEq

/-- The shape `(batch, locations, channels)` of a 3-D tensor. -/
structure Shape3 where
  b : ℕ
  l : ℕ
  c : ℕ
deriving DecidableEq

/-- The shape `(batch, height, width, channels)` of a channels-last 4-D view. -/
structure ShapeBHWC where
  b : ℕ
  h : ℕ
  w : ℕ
  c : ℕ
deriving DecidableEq

/-- Output length of a 1-D convolution/pooling window:
`floor((n + 2*padding - kernel) / stride) + 1`. -/
def conv2d_out (n kernel stride padding : ℕ) : ℕ :=
  (n + 2 * padding - kernel) / stride + 1

/-- Shape of `nn.Conv2d(in_ch, out_ch, kernel, stride, padding)`: requires the
input channel count to match and the padded input to cover the kernel. -/
def conv2d_shape (in_ch out_ch kernel stride padding : ℕ) (x : Shape4) : Option Shape4 :=
  if x.c = in_ch ∧ kernel ≤ x.h + 2 * padding ∧ kernel ≤ x.w + 2 * padding then
    some ⟨x.b, out_ch, conv2d_out x.h kernel stride padding, conv2d_out x.w kernel stride padding⟩
  else none

/-- Shape of `nn.MaxPool2d(kernel, stride, padding)` (default floor mode). -/
def maxpool2d_shape (kernel stride padding : ℕ) (x : Shape4) : Option Shape4 :=
  if kernel ≤ x.h + 2 * padding ∧ kernel ≤ x.w + 2 * padding then
    some ⟨x.b, x.c, conv2d_out x.h kernel stride padding, conv2d_out x.w kernel stride padding⟩
  else none

/-- Shape of `nn.AdaptiveMaxPool2d((oh, ow))`. -/
def adaptive_maxpool2d_shape (oh ow : ℕ) (x : Shape4) : Shape4 :=
  ⟨x.b, x.c, oh, ow⟩

/-- Shape of `nn.Flatten` on a 4-D tensor. -/
def flatten_shape (x : Shape4) : Shape2 :=
  ⟨x.b, x.c * x.h * x.w⟩

/-- Shape of `nn.Linear(in_f, out_f)`: requires the feature count to match. -/
def linear_shape (in_f out_f : ℕ) (x : Shape2) : Option Shape2 :=
  if x.n = in_f then some ⟨x.b, out_f⟩ else none

/-- Shape of `x.permute(0, 2, 3, 1)` on a `(B, C, H, W)` tensor. -/
def permute_0231_shape (x : Shape4) : ShapeBHWC :=
  ⟨x.b, x.h, x.w, x.c⟩

/-- Shape of `x.view(batch_size, -1, features_dim)` on a `(B, H, W, C)` view. -/
def view_blc_shape (x : ShapeBHWC) : Shape3 :=
  ⟨x.b, x.h * x.w, x.c⟩

/-- Shape of `SolfAttention.forward` on a `(batch, locations, channels)` input:
the weighted encoding keeps the input shape (each location's feature vector is
scaled by a scalar) and `alpha` has shape `(batch, locations)`, exactly the
typing of `SolfAttention.forward` above. -/
def solfAttention_shape (x : Shape3) : Shape3 × Shape2 :=
  (x, ⟨x.b, x.l⟩)

/-- Shape of `x.reshape(originalshape)`: succeeds iff the element counts agree,
and then restores `originalshape`. -/
def reshape_to_shape (orig : ShapeBHWC) (x : Shape3) : Option ShapeBHWC :=
  if x.b * x.l * x.c = orig.b * orig.h * orig.w * orig.c then some orig else none

/-- Shape of `x.permute(0, 3, 1, 2)` on a `(B, H, W, C)` view. -/
def permute_0312_shape (x : ShapeBHWC) : Shape4 :=
  ⟨x.b, x.c, x.h, x.w⟩

/-- Shape of the three-convolution stack of `HumanUnderstandableEncoding`
(lines 270-272 / 283-285): `conv1 = Conv2d(num_inputs, channels_step, 3, 3)`,
`conv2 = Conv2d(channels_step, 2*channels_step, 2, 2)`,
`conv3 = Conv2d(2*channels_step, 2*channels_step, 1, 1)`. -/
def HUE_conv_stack_shape (num_inputs channels_step : ℕ) (input : Shape4) : Option Shape4 :=
  (conv2d_shape num_inputs channels_step 3 3 0 input).bind fun x1 =>
  (conv2d_shape channels_step (2 * channels_step) 2 2 0 x1).bind fun x2 =>
  conv2d_shape (2 * channels_step) (2 * channels_step) 1 1 0 x2

/-- Shape of `HumanUnderstandableEncoding.forward` (lines 282-295): the three
convolutions, `permute(0,2,3,1)`, `view(batch, -1, features_dim)`, the
attention stage, `reshape(originalshape)`, `permute(0,3,1,2)`.  Returns the
shape of the returned feature map together with the shape of the recorded
attention weights `self.att`. -/
def HUE_shape (num_inputs channels_step : ℕ) (input : Shape4) : Option (Shape4 × Shape2) :=
  (conv2d_shape num_inputs channels_step 3 3 0 input).bind fun x1 =>
  (conv2d_shape channels_step (2 * channels_step) 2 2 0 x1).bind fun x2 =>
  (conv2d_shape (2 * channels_step) (2 * channels_step) 1 1 0 x2).bind fun x3 =>
  let xp := permute_0231_shape x3
  let xv := view_blc_shape xp
  let xa := solfAttention_shape xv
  (reshape_to_shape xp xa.1).bind fun xr =>
  some (permute_0312_shape xr, xa.2)

/-- Shape of `NatureCNN.forward` (lines 114-128): three convolutions with
ReLU, flatten, `linear_layer(3136, 512)`, ReLU, `linear_layer(512, actions)`. -/
def natureCNN_shape (depth actions : ℕ) (x : Shape4) : Option Shape2 :=
  (conv2d_shape depth 32 8 4 0 x).bind fun x1 =>
  (conv2d_shape 32 64 4 2 0 x1).bind fun x2 =>
  (conv2d_shape 64 64 3 1 0 x2).bind fun x3 =>
  (linear_shape 3136 512 (flatten_shape x3)).bind fun x4 =>
  linear_shape 512 actions x4

/-- Shape of `ImpalaCNNResidual.forward` (lines 193-207): two shape-preserving
`Conv2d(depth, depth, 3, 1, padding=1)` and the residual addition `x + x_`,
which requires the shapes to agree. -/
def impalaResidual_shape (depth : ℕ) (x : Shape4) : Option Shape4 :=
  (conv2d_shape depth depth 3 1 1 x).bind fun x0 =>
  (conv2d_shape depth depth 3 1 1 x0).bind fun x1 =>
  if x1 = x then some x else none

/-- Shape of a `Dueling` head built from two
`Sequential(linear(in_f, hidden), ReLU, linear(hidden, ·))` branches on a
flattened 4-D feature map (value branch to 1, advantage branch to `actions`);
the broadcast `value + (advantages - mean)` has the advantage shape. -/
def dueling_shape (in_f hidden actions : ℕ) (x : Shape4) : Option Shape2 :=
  let f := flatten_shape x
  (linear_shape in_f hidden f).bind fun v1 =>
  (linear_shape hidden 1 v1).bind fun _ =>
  (linear_shape in_f hidden f).bind fun a1 =>
  linear_shape hidden actions a1

/-- Shape of `ImpalaCNNLarge.forward` (lines 229-265) with a given
`model_size`: the `HumanUnderstandableEncoding(in_depth, 16*model_size)`
front-end, then `AFE = Sequential(MaxPool2d(3, 2, padding=1),
ImpalaCNNResidual(32*model_size), ImpalaCNNResidual(32*model_size), ReLU,
AdaptiveMaxPool2d((8, 8)))`, then the dueling head on
`2048*model_size` flattened features.  Returns the output shape together with
the shape of the recorded attention weights. -/
def impalaCNNLarge_shape (in_depth actions model_size : ℕ) (x : Shape4) :
    Option (Shape2 × Shape2) :=
  (HUE_shape in_depth (16 * model_size) x).bind fun fa =>
  (maxpool2d_shape 3 2 1 fa.1).bind fun p =>
  (impalaResidual_shape (32 * model_size) p).bind fun r0 =>
  (impalaResidual_shape (32 * model_size) r0).bind fun r1 =>
  (dueling_shape (2048 * model_size) 256 actions (adaptive_maxpool2d_shape 8 8 r1)).bind fun q =>
  some (q, fa.2)

/-! ### The model factory `get_model` -/

/-- The Python exceptions `get_model` can raise: `int()` on a malformed string
raises `ValueError`. -/
inductive PyError where
  | valueError
deriving DecidableEq

/-- The value returned by `get_model` (lines 332-337): one of the three
backbone classes, or `functools.partial(ImpalaCNNLarge, model_size=...,
spectral_norm=...)`.  Only the large variant closes over the
`spectral_norm` argument.  `σ` is the type of that argument (it is passed
through opaquely). -/
inductive ModelConstructor (σ : Type) where
  | natureCNN
  | duelingNatureCNN
  | impalaCNNSmall
  | impalaCNNLarge (model_size : ℤ) (spectral_norm : σ)
deriving DecidableEq

/-- Value of a nonempty decimal digit string. -/
def digitsVal (cs : List Char) : ℕ :=
  cs.foldl (fun acc c => 10 * acc + (c.toNat - 48)) 0

/-- Strip leading and trailing whitespace from a character list. -/
def pyStrip (cs : List Char) : List Char :=
  ((cs.dropWhile Char.isWhitespace).reverse.dropWhile Char.isWhitespace).reverse

/-- A nonempty all-digit character list parsed as a natural number. -/
def pyUnsignedInt (cs : List Char) : Option ℕ :=
  if cs ≠ [] ∧ cs.all Char.isDigit then some (digitsVal cs) else none

/-- Python `int(s)` on the strings this program passes it: optional
whitespace, an optional sign, then a nonempty digit string; anything else
raises `ValueError` (modelled as `none`).  Digit-group underscores are not
modelled. -/
def pyInt (s : String) : Option ℤ :=
  match pyStrip s.data with
  | '-' :: rest => (pyUnsignedInt rest).map (fun n => -(n : ℤ))
  | '+' :: rest => (pyUnsignedInt rest).map (fun n => (n : ℤ))
  | cs => (pyUnsignedInt cs).map (fun n => (n : ℤ))

/-- Python `s.startswith(pre)`. -/
def pyStartsWith (s pre : String) : Bool :=
  pre.data.isPrefixOf s.data

/-- Python slice `s[n:]`. -/
def pySliceFrom (s : String) (n : ℕ) : String :=
  String.mk (s.data.drop n)

/-- `get_model(model_str, spectral_norm)` (lines 332-337).  The `if/elif`
chain has no `else`, so an unmatched string makes the function return `None`
(`Except.ok none`); a string matching `impala_large:` with a suffix that
`int()` rejects raises `ValueError` at selection time. -/
def get_model {σ : Type} (model_str : String) (spectral_norm : σ) :
    Except PyError (Option (ModelConstructor σ)) :=
  if model_str = "nature" then .ok (some .natureCNN)
  else if model_str = "dueling" then .ok (some .duelingNatureCNN)
  else if model_str = "impala_small" then .ok (some .impalaCNNSmall)
  else if pyStartsWith model_str "impala_large:" then
    match pyInt (pySliceFrom model_str 13) with
    | some k => .ok (some (.impalaCNNLarge k spectral_norm))
    | none => .error .valueError
  else .ok none

/-! ### Theorems -/

/-- C1 counterexample: `get_model("not_a_model")` returns normally with `None`
(the `if/elif` chain has no `else`), instead of raising a configuration error
at selection time. -/
theorem get_model_unmatched_returns_ok_none :
    get_model (σ := Bool) "not_a_model" false = Except.ok none := by
  rfl

/-- C1 (amended): an unrecognized backbone name that does not start with
`"impala_large:"` makes `get_model` return normally with `None` (no error is
raised); only a malformed `impala_large:` size suffix raises (a `ValueError`
from `int()`) at selection time. -/
theorem get_model_fallthrough_and_malformed_suffix {σ : Type} (s : String) (sn : σ)
    (h1 : s ≠ "nature") (h2 : s ≠ "dueling") (h3 : s ≠ "impala_small")
    (h4 : pyStartsWith s "impala_large:" = false) :
    get_model s sn = Except.ok none ∧
    get_model (σ := Bool) "impala_large:x" false = Except.error PyError.valueError := by
  refine ⟨?_, rfl⟩
  simp [get_model, h1, h2, h3, h4]

/-- C1 witness: the amended fall-through behavior at the concrete string
`"not_a_model"`. -/
theorem get_model_fallthrough_witness :
    get_model (σ := Bool) "not_a_model" true = Except.ok none ∧
    get_model (σ := Bool) "impala_large:x" false = Except.error PyError.valueError :=
  get_model_fallthrough_and_malformed_suffix "not_a_model" true
    (by decide) (by decide) (by decide) (by decide)

/-- C2 counterexample: on a concrete `DuelingAlt` head and input,
`forward(x, advantages_only=True)` returns `1` while the raw advantage vector
is `5` — the flag is ignored and the full mean-centered output is returned. -/
theorem duelingAlt_advantages_only_cex :
    DuelingAlt.forward duelingAltEx duelingAltExInput true 0 0 ≠
      DuelingAlt.advantagesSpec duelingAltEx duelingAltExInput 0 0 := by
  have hmain : ∀ j, duelingAltEx.main duelingAltExInput 0 j = duelingAltEx.l2_bias j := by
    intro j
    simp [DuelingAlt.main, F.linear, duelingAltEx, duelingAltExInput, relu]
  have hF : DuelingAlt.forward duelingAltEx duelingAltExInput true 0 0 = 1 := by
    simp only [DuelingAlt.forward, hmain, Fin.sum_univ_one]
    simp [duelingAltEx, Fin.succ_ne_zero]
  have hA : DuelingAlt.advantagesSpec duelingAltEx duelingAltExInput 0 0 = 5 := by
    simp only [DuelingAlt.advantagesSpec, hmain]
    simp [duelingAltEx, Fin.succ_ne_zero]
  rw [hF, hA]
  norm_num

/-- C2 (amended): `Dueling.forward` with `advantages_only=True` returns the
raw advantage vector, but `DuelingAlt.forward` ignores the flag: its output is
the same (full, mean-centered) tensor for every value of `advantages_only`. -/
theorem advantages_only_behavior {B fdim hidden actions : ℕ}
    (d : Dueling ℚ fdim actions) (m : DuelingAlt ℚ fdim hidden actions)
    (x : Fin B → Fin fdim → ℚ) (y : Fin B → Fin fdim → ℚ) :
    Dueling.forward d x true = (fun b => d.advantage_branch (x b)) ∧
    ∀ flag, DuelingAlt.forward m y flag = DuelingAlt.forward m y false :=
  ⟨rfl, fun _ => rfl⟩

/-- C3 counterexample: on a `(1, 4, 84, 84)` observation the encoder returns a
`(1, 32, 14, 14)` feature map — not the spatial/channel shape of the input
observation it consumed. -/
theorem hue_output_shape_cex :
    HUE_shape 4 16 ⟨1, 4, 84, 84⟩ = some (⟨1, 32, 14, 14⟩, ⟨1, 196⟩) ∧
    (⟨1, 32, 14, 14⟩ : Shape4) ≠ ⟨1, 4, 84, 84⟩ :=
  ⟨by decide, by decide⟩

/-- C3 (amended): the attention stage of the encoder is shape-preserving —
whenever the three-convolution stack produces a feature map of shape `x3`,
the encoder returns a feature map of exactly that shape (the shape the
attention stage consumed), with attention weights of shape
`(batch, height*width)`. -/
theorem hue_preserves_attention_input_shape (num_inputs channels_step : ℕ)
    (input x3 : Shape4)
    (h : HUE_conv_stack_shape num_inputs channels_step input = some x3) :
    HUE_shape num_inputs channels_step input = some (x3, ⟨x3.b, x3.h * x3.w⟩) := by
  simp only [HUE_conv_stack_shape, Option.bind_eq_some] at h
  obtain ⟨x1, h1, x2, h2, h3⟩ := h
  simp [HUE_shape, h1, h2, h3, permute_0231_shape, view_blc_shape, solfAttention_shape,
        reshape_to_shape, permute_0312_shape, mul_assoc]

/-- C3 witness: the amended shape-preservation fact at the concrete
`(1, 4, 84, 84)` observation. -/
theorem hue_preserves_attention_input_shape_witness :
    HUE_conv_stack_shape 4 16 ⟨1, 4, 84, 84⟩ = some ⟨1, 32, 14, 14⟩ ∧
    HUE_shape 4 16 ⟨1, 4, 84, 84⟩ = some (⟨1, 32, 14, 14⟩, ⟨1, 14 * 14⟩) :=
  ⟨by decide, hue_preserves_attention_input_shape 4 16 ⟨1, 4, 84, 84⟩ ⟨1, 32, 14, 14⟩ (by decide)⟩

/-- C4: after `disable_noise()`, `forward` is numerically identical to
`F.linear(input, weight_mu, bias_mu)` — a plain linear layer driven only by
the mean parameters — for every state and every input row. -/
theorem disable_noise_forward_plain_linear {nI nO : ℕ}
    (l : FactorizedNoisyLinear ℚ nI nO) (input : Fin nI → ℚ) :
    (l.disable_noise).forward input = F.linear input l.weight_mu l.bias_mu := by
  funext j
  simp [FactorizedNoisyLinear.forward, FactorizedNoisyLinear.disable_noise, F.linear]

/-- C5: the full dueling output is `Q = V + (A - mean(A over actions))` per
batch element, and shifting every advantage of a row by a constant `c` leaves
`Q` unchanged (decomposition invariance). -/
theorem dueling_decomposition_invariance {B fdim actions : ℕ}
    (m : Dueling ℚ fdim actions) (x : Fin B → Fin fdim → ℚ) (c : ℚ)
    (hA : 0 < actions) :
    Dueling.forward m x false = (fun b a =>
      m.value_branch (x b)
        + (m.advantage_branch (x b) a
            - (∑ a', m.advantage_branch (x b) a') / (actions : ℚ))) ∧
    Dueling.forward ⟨m.value_branch, fun v a => m.advantage_branch v a + c⟩ x false
      = Dueling.forward m x false := by
  constructor
  · rfl
  · funext b a
    have hc : (actions : ℚ) ≠ 0 := Nat.cast_ne_zero.mpr hA.ne'
    simp only [Dueling.forward, Bool.false_eq_true, if_false,
               Finset.sum_add_distrib, Finset.sum_const, Finset.card_univ,
               Fintype.card_fin, nsmul_eq_mul]
    field_simp
    ring

/-- C5 witness: the shift-invariance law at a concrete head, batch and
shift `c = 2`. -/
theorem dueling_decomposition_invariance_witness :
    0 < 1 ∧
    Dueling.forward ⟨duelingEx.value_branch, fun v a => duelingEx.advantage_branch v a + 2⟩
        duelingExInput false
      = Dueling.forward duelingEx duelingExInput false :=
  ⟨Nat.one_pos, (dueling_decomposition_invariance duelingEx duelingExInput 2 Nat.one_pos).2⟩

/-- Softmax weights over the locations axis are non-negative. -/
theorem softmaxLoc_nonneg {B L : ℕ} (att : Fin B → Fin L → ℝ) (b : Fin B) (l : Fin L) :
    0 ≤ softmaxLoc att b l :=
  div_nonneg (Real.exp_pos _).le (Finset.sum_nonneg fun _ _ => (Real.exp_pos _).le)

/-- Softmax weights over a nonempty locations axis sum to 1. -/
theorem softmaxLoc_sum_one {B L : ℕ} (att : Fin B → Fin L → ℝ) (hL : 0 < L) (b : Fin B) :
    ∑ l, softmaxLoc att b l = 1 := by
  have : Nonempty (Fin L) := ⟨⟨0, hL⟩⟩
  have hpos : 0 < ∑ l', Real.exp (att b l') :=
    Finset.sum_pos (fun _ _ => Real.exp_pos _) Finset.univ_nonempty
  unfold softmaxLoc
  rw [← Finset.sum_div, div_self hpos.ne']

/-- C6: the attention weights returned by `SolfAttention.forward` are
non-negative and sum to exactly 1 along the locations axis for each batch
element (hence within the stated 1e-5 tolerance), for any parameters and any
features tensor with at least one location. -/
theorem attention_weights_normalized {B L fd ad : ℕ} (m : SolfAttention fd ad)
    (features : Fin B → Fin L → Fin fd → ℝ) (hL : 0 < L) :
    (∀ b l, 0 ≤ (m.forward features).2 b l) ∧
    (∀ b, ∑ l, (m.forward features).2 b l = 1) :=
  ⟨fun b l => softmaxLoc_nonneg _ b l, fun b => softmaxLoc_sum_one _ hL b⟩

/-- C6 witness: normalization of the attention weights at a concrete
one-batch, one-location, one-channel input. -/
theorem attention_weights_normalized_witness :
    0 < 1 ∧
    ((∀ b l, 0 ≤ (attentionEx.forward attentionExFeatures).2 b l) ∧
     (∀ b, ∑ l, (attentionEx.forward attentionExFeatures).2 b l = 1)) :=
  ⟨Nat.one_pos, attention_weights_normalized attentionEx attentionExFeatures Nat.one_pos⟩

/-- C7 counterexample: the constructor itself runs `reset_parameters()` and
`reset_noise()` (lines 30-31), so immediately after construction the noise
buffers hold the transformed noise draws (here `f(9)*f(4) = 6` and `f(9) = 3`)
— not the arbitrary contents of the `torch.empty` allocation (`42` and `7`).
No caller invocation of `reset_noise`/`disable_noise` is needed first. -/
theorem init_overwrites_buffers_cex :
    garbageEx.weight_epsilon 0 0 = 42 ∧ garbageEx.bias_epsilon 0 = 7 ∧
    (FactorizedNoisyLinear.init 1 1 (1 / 2) garbageEx (fun _ _ => 0) (fun _ => 0)
        (fun _ => 4) (fun _ => 9)).weight_epsilon 0 0 = 6 ∧
    (FactorizedNoisyLinear.init 1 1 (1 / 2) garbageEx (fun _ _ => 0) (fun _ => 0)
        (fun _ => 4) (fun _ => 9)).bias_epsilon 0 = 3 ∧
    (6 : ℝ) ≠ 42 ∧ (3 : ℝ) ≠ 7 := by
  have h4 : Real.sqrt 4 = 2 := by
    rw [show (4 : ℝ) = 2 ^ 2 by norm_num, Real.sqrt_sq (by norm_num)]
  have h9 : Real.sqrt 9 = 3 := by
    rw [show (9 : ℝ) = 3 ^ 2 by norm_num, Real.sqrt_sq (by norm_num)]
  refine ⟨rfl, rfl, ?_, ?_, by norm_num, by norm_num⟩
  · show Real.sign 9 * Real.sqrt |(9 : ℝ)| * (Real.sign 4 * Real.sqrt |(4 : ℝ)|) = 6
    rw [Real.sign_of_pos (by norm_num), Real.sign_of_pos (by norm_num),
        abs_of_pos (by norm_num), abs_of_pos (by norm_num), h4, h9]
    norm_num
  · show Real.sign 9 * Real.sqrt |(9 : ℝ)| = 3
    rw [Real.sign_of_pos (by norm_num), abs_of_pos (by norm_num), h9]
    norm_num

/-- C7 (amended): the constructor establishes the noise state itself — after
`__init__` both noise buffers equal what `reset_noise` produces from the
draws, independently of the contents of the uninitialized allocation, so no
caller precondition is required before the first forward pass. -/
theorem init_establishes_noise_state {nI nO : ℕ} (sigma_0 : ℝ)
    (garbage garbage' : FactorizedNoisyLinear ℝ nI nO)
    (wdraw : Fin nO → Fin nI → ℝ) (bdraw : Fin nO → ℝ)
    (draw_in : Fin nI → ℝ) (draw_out : Fin nO → ℝ) :
    (FactorizedNoisyLinear.init nI nO sigma_0 garbage wdraw bdraw draw_in draw_out).weight_epsilon
        = (fun j i => FactorizedNoisyLinear.get_noise draw_out j
            * FactorizedNoisyLinear.get_noise draw_in i) ∧
    (FactorizedNoisyLinear.init nI nO sigma_0 garbage wdraw bdraw draw_in draw_out).bias_epsilon
        = FactorizedNoisyLinear.get_noise draw_out ∧
    FactorizedNoisyLinear.init nI nO sigma_0 garbage wdraw bdraw draw_in draw_out
        = FactorizedNoisyLinear.init nI nO sigma_0 garbage' wdraw bdraw draw_in draw_out :=
  ⟨rfl, rfl, rfl⟩

/-- C8: `reset_noise` applies `f(x) = sign(x) * sqrt(|x|)` elementwise to the
two standard-normal draw vectors, sets `weight_epsilon` (shape
`out_features × in_features`) to the outer product of the transformed output
and input noise vectors, and sets `bias_epsilon` (shape `out_features`) to the
transformed output noise vector. -/
theorem reset_noise_outer_product_spec {nI nO : ℕ} (l : FactorizedNoisyLinear ℝ nI nO)
    (draw_in : Fin nI → ℝ) (draw_out : Fin nO → ℝ) :
    (l.reset_noise draw_in draw_out).weight_epsilon
        = (fun j i => (Real.sign (draw_out j) * Real.sqrt |draw_out j|)
            * (Real.sign (draw_in i) * Real.sqrt |draw_in i|)) ∧
    (l.reset_noise draw_in draw_out).bias_epsilon
        = fun j => Real.sign (draw_out j) * Real.sqrt |draw_out j| :=
  ⟨rfl, rfl⟩

set_option maxHeartbeats 1000000 in
/-- C9: `NatureCNN(depth=4, actions=6)` maps a `(32, 4, 84, 84)` batch to a
`(32, 6)` tensor; `ImpalaCNNLarge(4, 6, model_size=1)` maps the same batch
shape to `(32, 6)` while recording attention weights of shape `(32, 196)`
(`H×W = 14×14`); and every recorded attention row sums to 1, for any
parameters and any conv-stack features at those dimensions. -/
theorem end_to_end_shapes :
    natureCNN_shape 4 6 ⟨32, 4, 84, 84⟩ = some ⟨32, 6⟩ ∧
    impalaCNNLarge_shape 4 6 1 ⟨32, 4, 84, 84⟩ = some (⟨32, 6⟩, ⟨32, 196⟩) ∧
    ∀ (ad : ℕ) (m : SolfAttention 32 ad) (features : Fin 32 → Fin 196 → Fin 32 → ℝ)
      (b : Fin 32), ∑ l, (m.forward features).2 b l = 1 :=
  ⟨by decide, by decide, fun _ m features b => softmaxLoc_sum_one _ (by norm_num) b⟩

/-- C10: for the names `"nature"`, `"dueling"` and `"impala_small"` the value
returned by `get_model` is the same for any two values of the `spectral_norm`
argument — only the `impala_large` branch closes over it. -/
theorem get_model_ignores_spectral_norm {σ : Type} (sn1 sn2 : σ) :
    get_model "nature" sn1 = get_model "nature" sn2 ∧
    get_model "dueling" sn1 = get_model "dueling" sn2 ∧
    get_model "impala_small" sn1 = get_model "impala_small" sn2 :=
  ⟨rfl, rfl, rfl⟩

end Networks
